import Mathlib

/-
  Verification of the stylus core (parser + evaluator) against its
  specification.  The evaluator is embedded from
  src/lib/visitor/evaluator.js, the parser expression grammar from the
  Parser in src/examples/middleware.js.  The AST node model, the
  lexer's tokens and the Scope/Stack containers are not part of the
  provided sources; where they are needed they are modelled from the
  spec (sections 3 and 4.3) and marked as such.

  Evaluation is embedded as a fuel-indexed state-passing function:
  the mutable evaluator object (frame stack, `return` flag, `calling`
  list, registered host functions) becomes an explicit state record,
  thrown JS exceptions (including the thrown `Return` node) become an
  error channel that carries the state at throw time.
-/

set_option maxHeartbeats 1000000
set_option maxRecDepth 10000

/-- Modelled from the spec (section 3, "Node variants"): the AST node
model of the fragment of the language exercised by the evaluator
claims.  `lib/nodes` is not among the provided sources.  `undef`
stands for the JavaScript `undefined` value which several evaluator
code paths can produce (e.g. `eval` of an empty body).  A user
function (`funcUser`) carries its parameter triples
(name, rest-flag, default value) and the statement list of its body
block; a host/built-in function (`funcNative`) carries its `raw`
flag.  Both print as nodeName "function" as in the source. -/
inductive Node where
  | undef
  | null
  | boolean (b : Bool)
  | unit (val : Int) (suffix : String)
  | str (s : String)
  | literal (s : String)
  | color (r g b a : Int)
  | ident (name : String) (val : Node)
  | expression (isList : Bool) (nodes : List Node)
  | binop (op : String) (left right : Node)
  | unaryop (op : String) (expr : Node)
  | ternary (cond tBranch fBranch : Node)
  | call (name : String) (args : Node)
  | funcUser (name : String) (params : List (String × Bool × Node)) (body : List Node)
  | funcNative (name : String) (raw : Bool)
  | ret (expr : Node)
  | block (scope : Bool) (nodes : List Node)
  | property (segments : List Node) (name : String) (expr : Node) (lit : Bool)
deriving Repr

/-- The `nodeName` of a node, as used by the evaluator's string
comparisons (JS lower-cased constructor name). -/
def Node.nodeName : Node → String
  | .undef => "undefined"
  | .null => "null"
  | .boolean _ => "boolean"
  | .unit _ _ => "unit"
  | .str _ => "string"
  | .literal _ => "literal"
  | .color _ _ _ _ => "color"
  | .ident _ _ => "ident"
  | .expression _ _ => "expression"
  | .binop _ _ _ => "binop"
  | .unaryop _ _ => "unaryop"
  | .ternary _ _ _ => "ternary"
  | .call _ _ => "call"
  | .funcUser _ _ _ => "function"
  | .funcNative _ _ => "function"
  | .ret _ => "return"
  | .block _ _ => "block"
  | .property _ _ _ _ => "property"

/-- Modelled from the spec (section 3, shared behavior `first`;
glossary "Primary"): the first primary of an expression, the node
itself otherwise. -/
def Node.first : Node → Node
  | .expression _ (n :: _) => Node.first n
  | .expression _ [] => .null
  | n => n

/-- Modelled from the spec (section 3): `Expression.isEmpty` is true
exactly for an expression with no nodes; other nodes have no
`isEmpty` property (JS `undefined`, falsy). -/
def Node.isEmpty : Node → Bool
  | .expression _ [] => true
  | _ => false

/-- The `.nodes` list of an expression or block, as accessed by
`invoke`, `invokeFunction` and `invokeBuiltin`. -/
def Node.nodesOf : Node → List Node
  | .expression _ ns => ns
  | .block _ ns => ns
  | n => [n]

/-- Modelled from the spec (section 3, shared behavior `toBoolean`):
boolean nodes decide themselves, zero units / empty strings / null
are false, everything else is truthy. -/
def Node.toBoolean : Node → Bool
  | .boolean b => b
  | .unit v _ => v != 0
  | .str s => s.length != 0
  | .null => false
  | _ => true

/-- Modelled from the spec (section 4.4 "unwrap singleton
expressions"): `utils.unwrap` collapses an expression that wraps a
single nested expression. -/
def unwrap : Node → Node
  | .expression b (e :: []) =>
      match e with
      | .expression _ _ => unwrap e
      | _ => .expression b [e]
  | n => n

/-- Shallow value equality used by `operate` for `==` / `!=` after
coercion (modelled from the spec, section 3 shared behavior
`operate`). -/
def valueEq : Node → Node → Bool
  | .unit a _, .unit b _ => a == b
  | .str a, .str b => a == b
  | .boolean a, .boolean b => a == b
  | .color a b c d, .color e f g h => a == e && b == f && c == g && d == h
  | .null, .null => true
  | _, _ => false

/-- Modelled from the spec (sections 3 and 7, shared behavior
`coerce`; "TypeError (coercion failure outside ==/!=)"): coercion of
the right operand to the left operand's kind succeeds between nodes
of the same value kind and fails otherwise. -/
def coerce (l r : Node) : Except String Node :=
  match l, r with
  | .unit _ su, .unit v _ => .ok (.unit v su)
  | .str _, .str s => .ok (.str s)
  | .boolean _, .boolean b => .ok (.boolean b)
  | .color _ _ _ _, .color a b c d => .ok (.color a b c d)
  | _, _ => .error ("failed to coerce " ++ r.nodeName)

/-- Modelled from the spec (section 3, shared behavior `operate`):
the binary operation on already-coerced primaries. -/
def operate (op : String) (l r : Node) : Node :=
  match op with
  | "==" => .boolean (valueEq l r)
  | "!=" => .boolean (!(valueEq l r))
  | "+" =>
      match l, r with
      | .unit a su, .unit b _ => .unit (a + b) su
      | .str a, .str b => .str (a ++ b)
      | _, _ => .null
  | "-" =>
      match l, r with
      | .unit a su, .unit b _ => .unit (a - b) su
      | _, _ => .null
  | "*" =>
      match l, r with
      | .unit a su, .unit b _ => .unit (a * b) su
      | _, _ => .null
  | "/" =>
      match l, r with
      | .unit a su, .unit b _ => .unit (a / b) su
      | _, _ => .null
  | "%" =>
      match l, r with
      | .unit a su, .unit b _ => .unit (a % b) su
      | _, _ => .null
  | ">" =>
      match l, r with
      | .unit a _, .unit b _ => .boolean (decide (b < a))
      | _, _ => .boolean false
  | "<" =>
      match l, r with
      | .unit a _, .unit b _ => .boolean (decide (a < b))
      | _, _ => .boolean false
  | ">=" =>
      match l, r with
      | .unit a _, .unit b _ => .boolean (decide (b ≤ a))
      | _, _ => .boolean false
  | "<=" =>
      match l, r with
      | .unit a _, .unit b _ => .boolean (decide (a ≤ b))
      | _, _ => .boolean false
  | "||" => if l.toBoolean then l else r
  | "&&" => if l.toBoolean then r else l
  | "is a" =>
      match r with
      | .str s => .boolean (l.nodeName == s)
      | _ => .boolean false
  | "[]" =>
      match l, r with
      | .expression _ ns, .unit i _ => ns.getD i.toNat .null
      | _, _ => .null
  | _ => .null

/-- [src/lib/visitor/evaluator.js 688-702] `Evaluator.prototype.mixin`:
append the given nodes to `dest`, flattening nested blocks; a
`Return` node terminates the walk. -/
def mixinNodes : List Node → List Node → List Node
  | [], dest => dest
  | n :: rest, dest =>
      match n with
      | .ret _ => dest
      | .block _ bns => mixinNodes rest (mixinNodes bns dest)
      | _ => mixinNodes rest (dest ++ [n])

/-- [src/lib/visitor/evaluator.js 712-724] `Evaluator.prototype.eval`:
scan the statements; the first `Return` yields its expression, the
first nested block is scanned recursively (and ends the scan,
whatever it holds), otherwise the last statement is yielded
(JS `undefined` for an empty list). -/
def evalNodes : List Node → Node
  | [] => .undef
  | n :: rest =>
      match n with
      | .ret e => e
      | .block _ bns => evalNodes bns
      | _ => if rest.isEmpty then n else evalNodes rest

/-- The caller-block data a frame points at: its nodeName, its
statement list and the index of the statement currently being
visited (`block.index` in the source, read by `invoke` to splice
mixins). -/
structure Blk where
  name : String
  nodes : List Node
  index : Nat
deriving Repr

/-- [src/lib/stack/frame.js 22-25] a `Frame` owns one scope and
references a block.  The `Scope` container itself is modelled from
the spec (section 4.3): a name-to-value mapping where `add`
overwrites by name and `lookup` returns the bound value. -/
structure Frame where
  scope : List (String × Node)
  block : Blk
deriving Repr

/-- Modelled from the spec (section 4.3): `Scope.add` inserts or
overwrites a binding by name. -/
def scopeAdd (name : String) (v : Node) (sc : List (String × Node)) :
    List (String × Node) :=
  (name, v) :: sc.filter (fun p => p.1 != name)

/-- The evaluator's mutable fields as an explicit state: the frame
stack (head is the innermost frame), the `return` flag, the
`calling` list of active call names (head is the newest), the
user-registered host functions and built-ins (name with `raw` flag),
and the behaviour of the native callables. -/
structure St where
  stack : List Frame
  retFlag : Bool
  calling : List String
  functions : List (String × Bool)
  bifs : List (String × Bool)
  native : String → List Node → Node

/-- `this.stack.currentFrame` (innermost frame). -/
def curFrame (st : St) : Frame := st.stack.headD ⟨[], ⟨"", [], 0⟩⟩

/-- Update the innermost frame in place. -/
def withCurFrame (g : Frame → Frame) (st : St) : St :=
  match st.stack with
  | [] => st
  | fr :: rest => { st with stack := g fr :: rest }

def pushFrame (fr : Frame) (st : St) : St := { st with stack := fr :: st.stack }

def popFrame (st : St) : St := { st with stack := st.stack.tail }

/-- `this.stack.currentFrame.scope.add(...)`. -/
def scopeAddSt (name : String) (v : Node) (st : St) : St :=
  withCurFrame (fun fr => { fr with scope := scopeAdd name v fr.scope }) st

def setCurScope (sc : List (String × Node)) (st : St) : St :=
  withCurFrame (fun fr => { fr with scope := sc }) st

def setCurIndex (i : Nat) (st : St) : St :=
  withCurFrame (fun fr => { fr with block := { fr.block with index := i } }) st

def setCurNode (i : Nat) (n : Node) (st : St) : St :=
  withCurFrame
    (fun fr => { fr with block := { fr.block with nodes := fr.block.nodes.set i n } }) st

def setCurNodes (ns : List Node) (st : St) : St :=
  withCurFrame (fun fr => { fr with block := { fr.block with nodes := ns } }) st

/-- Modelled from the spec (section 4.3): `Stack.lookup` searches the
frames innermost-first and returns the first bound value. -/
def framesLookup : List Frame → String → Option Node
  | [], _ => none
  | fr :: rest, name =>
      match fr.scope.lookup name with
      | some v => some v
      | none => framesLookup rest name

/-- [src/lib/visitor/evaluator.js 797-800]
`Evaluator.prototype.lookupFunction`: a user-registered host
function, else a built-in, wrapped as a Function node with a native
body. -/
def lookupFunction (st : St) (name : String) : Option Node :=
  match st.functions.lookup name with
  | some raw => some (.funcNative name raw)
  | none =>
      match st.bifs.lookup name with
      | some raw => some (.funcNative name raw)
      | none => none

/-- [src/lib/visitor/evaluator.js 748-755] `Evaluator.prototype.lookup`:
stack lookup (unwrapped), else host function / BIF lookup. -/
def lookupE (st : St) (name : String) : Option Node :=
  match framesLookup st.stack name with
  | some v => some (unwrap v)
  | none => lookupFunction st name

/-- [src/lib/visitor/evaluator.js 222-237] the function-resolution
prefix of `visitCall`: stack lookup, unwrap a variable function
(first node of an expression), fall back to host/built-in lookup
when the stack value is not a function; `none` when the call must be
rendered as literal css. -/
def resolvedFunction (st : St) (name : String) : Option Node :=
  let fn0 := lookupE st name
  let fn1 : Option Node :=
    match fn0 with
    | some (.expression _ ns) => ns.head?
    | x => x
  let fn2 : Option Node :=
    match fn1 with
    | some n => if n.nodeName == "function" then some n else lookupFunction st name
    | none => none
  match fn2 with
  | some n => if n.nodeName == "function" then some n else none
  | none => none

/-- The error channel: JS exceptions thrown by the evaluator.
`returnEx` is the thrown `Return` node (caught by `visitBlock`),
`stackOverflow` the `RangeError('Maximum call stack size exceeded')`
of the recursion guard, `missingArgument` the required-argument
error of `invokeFunction`, `typeErr` a coercion/assert failure.
`outOfFuel` is an artefact of the fuel-indexed embedding. -/
inductive Err where
  | outOfFuel
  | stackOverflow
  | missingArgument (name : String)
  | typeErr (msg : String)
  | illegalUse (msg : String)
  | returnEx (expr : Node)
deriving Repr

/-- Result of one visit: the reduced node and the state after it, or
an exception carrying the state at throw time. -/
abbrev Res := Except (Err × St) (Node × St)

/-- [src/lib/visitor/evaluator.js 586-608] the parameter-binding loop
of `invokeFunction` for one parameter at position `i`: a rest
parameter collects the remaining arguments; otherwise a present,
non-empty argument wins over the declared default, and a `Null`
value is a missing required argument. -/
def bindVal (args : List Node) (i : Nat) (p : String × Bool × Node) :
    Except Err (String × Node) :=
  if p.2.1 then
    .ok (p.1, .expression false (args.drop i))
  else
    let val : Node :=
      match args.get? i with
      | some a => if a.isEmpty then p.2.2 else a
      | none => p.2.2
    match val with
    | .null => .error (.missingArgument p.1)
    | _ => .ok (p.1, val)

/-- [src/lib/visitor/evaluator.js 586-608] fold `bindVal` over the
parameter list, adding each binding to the scope. -/
def bindParams (params : List (String × Bool × Node)) (i : Nat)
    (args : List Node) (sc : List (String × Node)) :
    Except Err (List (String × Node)) :=
  match params with
  | [] => .ok sc
  | p :: rest =>
      match bindVal args i p with
      | .error e => .error e
      | .ok (n, v) => bindParams rest (i + 1) args (scopeAdd n v sc)

/-- [src/lib/visitor/evaluator.js 663-678] `Evaluator.prototype.invoke`:
in return mode, `eval` the body's statements; in mixin mode, splice
the body into the caller's block around the current statement index
and produce null. -/
def invokeF (st : St) (body : Node) : Node × St :=
  if st.retFlag then
    (evalNodes body.nodesOf, st)
  else
    let blk := (curFrame st).block
    let head := blk.nodes.take blk.index
    let tail := blk.nodes.drop (blk.index + 1)
    (.null, setCurNodes (mixinNodes body.nodesOf head ++ tail) st)

/-- [src/lib/visitor/evaluator.js 627-653]
`Evaluator.prototype.invokeBuiltin`: reduce each argument to its
first primary unless the function is `raw`, apply the native
callable, wrap the result in an expression and `invoke` it. -/
def invokeBuiltinF (st : St) (name : String) (raw : Bool) (args : Node) :
    Node × St :=
  let argList := if raw then args.nodesOf else args.nodesOf.map Node.first
  invokeF st (.expression false [st.native name argList])

/-- Stringification of one interpolation segment
([src/lib/visitor/evaluator.js 765-787], the non-expression cases of
`toString`; an unhandled node kind is JS `undefined`, which
`Array.prototype.join` renders as the empty string). -/
def segToStr : Node → String
  | .funcUser name _ _ => name
  | .funcNative name _ => name
  | .ident name _ => name
  | .literal s => s
  | .str s => s
  | .unit v _ => toString v
  | _ => ""

mutual

/-- [src/lib/visitor/evaluator.js] the visitor dispatch of the
`Evaluator`, fuel-indexed.  Node kinds without a visit method fall
through the base `Visitor` and are returned unchanged (modelled from
the spec, section 4.4). -/
def visitF (f : Nat) (st : St) (n : Node) : Res :=
  match f with
  | 0 => .error (.outOfFuel, st)
  | g + 1 =>
    match n with
    | .undef | .null | .boolean _ | .unit _ _ | .str _ | .literal _
    | .color _ _ _ _ => .ok (n, st)
    -- [270-284] visitIdent: a null val is a lookup (absent name is
    -- returned unchanged), otherwise an assignment: evaluate the RHS
    -- under return mode, bind in the current scope, yield the value.
    | .ident name val =>
        match val with
        | .null =>
            match lookupE st name with
            | some v => visitF g st v
            | none => .ok (.ident name .null, st)
        | _ =>
            match visitF g { st with retFlag := true } val with
            | .error e => .error e
            | .ok (v, st2) =>
                let st3 := { st2 with retFlag := st.retFlag }
                .ok (v, scopeAddSt name v st3)
    -- [290-345] visitBinOp: "is defined" short-circuits to a scope
    -- membership check on the unevaluated left operand; otherwise
    -- both operands are visited under return mode and handed to the
    -- coercion/operate phase.
    | .binop op l r =>
        if op == "is defined" then
          match l with
          | .ident nm _ => .ok (.boolean (lookupE st nm).isSome, st)
          | _ => .error (.illegalUse "invalid is-defined check", st)
        else
          match visitF g { st with retFlag := true } l with
          | .error e => .error e
          | .ok (l2, st2) =>
              match visitF g st2 r with
              | .error e => .error e
              | .ok (r2, st3) =>
                  binopPost g { st3 with retFlag := st.retFlag } op l2 r2
    -- [351-372] visitUnaryOp.
    | .unaryop op e =>
        match visitF g st e with
        | .error er => .error er
        | .ok (v, st2) =>
            let node := v.first
            if op == "!" then
              .ok (.boolean (!node.toBoolean), st2)
            else
              match node with
              | .unit x su =>
                  match op with
                  | "-" => .ok (.unit (-x) su, st2)
                  | "+" => .ok (.unit x su, st2)
                  | "~" => .ok (.unit (-(x + 1)) su, st2)
                  | _ => .ok (.unit x su, st2)
              | _ => .error (.typeErr "expected a unit", st2)
    -- [378-383] visitTernary.
    | .ternary cond tB fB =>
        match visitF g st cond with
        | .error e => .error e
        | .ok (c, st2) =>
            if c.toBoolean then visitF g st2 tB else visitF g st2 fB
    -- [389-394] visitExpression: visit each node in place.
    | .expression isList ns =>
        match visitSeq g st ns with
        | .error e => .error e
        | .ok (ns2, st2) => .ok (.expression isList ns2, st2)
    -- [222-264] visitCall: resolve the name; nothing resolving to a
    -- function renders the call literally (visit the arguments,
    -- re-emit the call).  Otherwise push onto `calling`, enforce the
    -- 200-frame recursion guard, evaluate the arguments under return
    -- mode and invoke.
    | .call name args =>
        match resolvedFunction st name with
        | none =>
            match visitF g st args with
            | .error e => .error e
            | .ok (args2, st2) => .ok (.call name args2, st2)
        | some fn =>
            let st1 := { st with calling := name :: st.calling }
            if st1.calling.length > 200 then
              .error (.stackOverflow, st1)
            else
              callResolved g st1 name fn args
    -- [174-188] visitFunction only warns; the node is unchanged.
    | .funcUser a b c => .ok (.funcUser a b c, st)
    | .funcNative a b => .ok (.funcNative a b, st)
    -- [147-150] visitReturn: evaluate the expression, then throw the
    -- Return up the visitor.
    | .ret e =>
        match visitF g st e with
        | .error er => .error er
        | .ok (v, st2) => .error (.returnEx v, st2)
    -- [440-457] visitBlock: a scoped block pushes one frame, visits
    -- its statements through that frame (so mixins spliced into it by
    -- `invoke` are seen), catches a thrown Return (stored in place,
    -- loop broken), and pops the frame; an unscoped block visits its
    -- statements against the enclosing frame.
    | .block scp ns =>
        if scp then
          let st1 := pushFrame ⟨[], ⟨"block", ns, 0⟩⟩ st
          match blockScoped g 0 st1 with
          | .error e => .error e
          | .ok st2 => .ok (.block true (curFrame st2).block.nodes, popFrame st2)
        else
          match blockUnscoped g st ns with
          | .error e => .error e
          | .ok (ns2, st2) => .ok (.block false ns2, st2)
    -- [400-422] visitProperty: interpolate the name; a property whose
    -- name is a function in scope, not already on the calling stack
    -- and not flagged literal is reinterpreted as a call; otherwise
    -- the expression is evaluated under return mode and the property
    -- is marked literal.
    | .property segs _nm0 expr lit =>
        match interpSeg g st segs with
        | .error e => .error e
        | .ok (nm, st1) =>
            let isFn : Bool :=
              match lookupE st1 nm with
              | some (.funcUser _ _ _) => true
              | some (.funcNative _ _) => true
              | _ => false
            let onStack := st1.calling.contains nm
            if isFn && !onStack && !lit then
              let st2 := { st1 with calling := nm :: st1.calling }
              match visitF g st2 (.call nm expr) with
              | .error e => .error e
              | .ok (r, st3) => .ok (r, { st3 with calling := st3.calling.tail })
            else
              match visitF g { st1 with retFlag := true } expr with
              | .error e => .error e
              | .ok (e2, st3) =>
                  .ok (.property segs nm e2 true, { st3 with retFlag := st1.retFlag })

termination_by (f, 0)

/-- The statement loop of `visitExpression` ([389-394]). -/
def visitSeq (f : Nat) (st : St) (ns : List Node) :
    Except (Err × St) (List Node × St) :=
  match ns with
  | [] => .ok ([], st)
  | n :: rest =>
      match visitF f st n with
      | .error e => .error e
      | .ok (n2, st2) =>
          match visitSeq f st2 rest with
          | .error e => .error e
          | .ok (ns2, st3) => .ok (n2 :: ns2, st3)

termination_by (f, ns.length + 1)

/-- [765-787] `Evaluator.prototype.interpolate`: stringify the
segments; an expression segment is visited under return mode
(saved/restored per segment) and its first primary stringified. -/
def interpSeg (f : Nat) (st : St) (segs : List Node) :
    Except (Err × St) (String × St) :=
  match segs with
  | [] => .ok ("", st)
  | seg :: rest =>
      match seg with
      | .expression a b =>
          match visitF f { st with retFlag := true } (.expression a b) with
          | .error e => .error e
          | .ok (r, st1) =>
              let st2 := { st1 with retFlag := st.retFlag }
              match interpSeg f st2 rest with
              | .error e => .error e
              | .ok (s, st3) => .ok (segToStr r.first ++ s, st3)
      | _ =>
          match interpSeg f st rest with
          | .error e => .error e
          | .ok (s, st3) => .ok (segToStr seg ++ s, st3)

termination_by (f, segs.length + 1)

/-- The statement loop of a scoped `visitBlock` ([442-454]): iterate
the current frame's block nodes (re-reading them each step, since a
mixin may splice into them), store each result, store a caught
Return and stop. -/
def blockScoped (f : Nat) (i : Nat) (st : St) : Except (Err × St) St :=
  match f with
  | 0 => .error (.outOfFuel, st)
  | g + 1 =>
      let ns := (curFrame st).block.nodes
      if i < ns.length then
        let st1 := setCurIndex i st
        match visitF g st1 (ns.getD i .null) with
        | .ok (r, st2) => blockScoped g (i + 1) (setCurNode i r st2)
        | .error (.returnEx e, st2) => .ok (setCurNode i (.ret e) st2)
        | .error e => .error e
      else
        .ok st

termination_by (f, 1)

/-- The statement loop of an unscoped `visitBlock` ([442-454]): the
enclosing frame is untouched; a caught Return is stored in place and
the remaining statements are left unvisited. -/
def blockUnscoped (f : Nat) (st : St) (ns : List Node) :
    Except (Err × St) (List Node × St) :=
  match ns with
  | [] => .ok ([], st)
  | n :: rest =>
      match visitF f st n with
      | .ok (r, st2) =>
          match blockUnscoped f st2 rest with
          | .error e => .error e
          | .ok (ns2, st3) => .ok (r :: ns2, st3)
      | .error (.returnEx e, st2) => .ok (.ret e :: rest, st2)
      | .error e => .error e

termination_by (f, ns.length + 1)

/-- [561-616] `Evaluator.prototype.invokeFunction`: clone the body,
push a fresh frame for the argument scope, bind `arguments`,
`mixin` and the parameters, evaluate the body, pop, and `invoke`
the result. -/
def invokeFunctionF (f : Nat) (st : St)
    (params : List (String × Bool × Node)) (body : List Node)
    (args : Node) : Res :=
  let mixinName := (curFrame st).block.name
  let st1 := pushFrame ⟨[], ⟨"block", [], 0⟩⟩ st
  let st2 := scopeAddSt "arguments" args st1
  let st3 := scopeAddSt "mixin"
    (if st.retFlag then .boolean false else .str mixinName) st2
  match bindParams params 0 args.nodesOf (curFrame st3).scope with
  | .error e => .error (e, st3)
  | .ok sc =>
      let st4 := setCurScope sc st3
      match visitF f st4 (.block true body) with
      | .error e => .error e
      | .ok (body2, st5) => .ok (invokeF (popFrame st5) body2)

termination_by (f, 1)

/-- [245-263] the tail of `visitCall` once a function resolved and the
recursion guard passed: evaluate the arguments under return mode,
restore the flag, dispatch to the built-in or user invocation, pop
`calling`. -/
def callResolved (f : Nat) (st1 : St) (name : String) (fn : Node)
    (args : Node) : Res :=
  match visitF f { st1 with retFlag := true } args with
  | .error e => .error e
  | .ok (args2, st3) =>
      let st4 := { st3 with retFlag := st1.retFlag }
      let inv : Res :=
        match fn with
        | .funcNative _ raw => .ok (invokeBuiltinF st4 name raw args2)
        | .funcUser _ ps body => invokeFunctionF f st4 ps body args2
        | _ => .ok (.undef, st4)
      match inv with
      | .error e => .error e
      | .ok (r, st5) => .ok (r, { st5 with calling := st5.calling.tail })

termination_by (f, 2)

/-- [303-344] the coercion/operate phase of `visitBinOp`, after both
operands were visited and the return flag restored: reduce to first
primaries (except for `[]`/`in`), skip coercion for the
non-coercing operators, special-case `-` against an unresolved
ident, coerce (a failure yields `false` for `==`/`!=` and
propagates otherwise), operate and visit the result. -/
def binopPost (f : Nat) (st : St) (op : String) (left0 right0 : Node) : Res :=
  let l := if op == "[]" || op == "in" then left0 else left0.first
  let r := if op == "[]" || op == "in" then right0 else right0.first
  if op == "[]" || op == "in" || op == "||" || op == "&&" || op == "is a" then
    visitF f st (operate op l r)
  else
    if op == "-" && l.nodeName == "ident" && r.nodeName == "unit" then
      match r with
      | .unit v su => .ok (.expression false [l, .unit (-v) su], st)
      | _ => .ok (.undef, st)
    else
      match coerce l r with
      | .ok r2 => visitF f st (operate op l r2)
      | .error msg =>
          if op == "==" || op == "!=" then .ok (.boolean false, st)
          else .error (.typeErr msg, st)

termination_by (f, 1)
end

/-- [src/examples/middleware.js 919-955] the desugaring performed by
`Parser.assignment` once the identifier name, the operator token and
the right-hand side have been parsed: `?=` builds the ternary
`(x is defined) ? x : (x = rhs)` over the assignment node, the
compound operators build `x = x op rhs`, plain `=` keeps the
assignment node.  (The missing right operand of the JS
`new nodes.BinOp('is defined', node)` is represented as `.null`;
`visitBinOp` never reads it.) -/
def assignmentNode (name : String) (op : String) (expr : Node) : Node :=
  let node := Node.ident name expr
  match op with
  | "?=" =>
      .ternary (.binop "is defined" node .null) (.ident name .null) node
  | "+=" | "-=" | "*=" | "/=" | "%=" =>
      .ident name (.binop (op.take 1) (.ident name .null) expr)
  | _ => node

/-- Modelled from the spec (section 3, "Token"): the lexer's tokens
for the expression-grammar fragment (the lexer is not among the
provided sources).  Operator and keyword tokens carry their type
string, which is also what the token stringifies to in the parser's
`'/' == op` comparison. -/
inductive Tok where
  | unit (v : Int) (suffix : String)
  | str (s : String)
  | literalTok (s : String)
  | boolean (b : Bool)
  | nullTok
  | color (r g b a : Int)
  | op (s : String)
deriving Repr, DecidableEq

/-- The parser state for the expression grammar: the remaining
tokens plus the `inProperty`, `parens` and `operand` flags of the
source Parser. -/
structure PS where
  toks : List Tok
  inProperty : Bool
  parens : Bool
  operand : Bool
deriving Repr, DecidableEq

/-- `Parser.accept` for an operator/keyword token. -/
def acceptOp (s : String) (ps : PS) : Option PS :=
  match ps.toks with
  | .op t :: rest => if t == s then some { ps with toks := rest } else none
  | _ => none

/-- Accept the first matching operator among `ls` (the chained
`this.accept(..) || this.accept(..)` pattern of the source). -/
def acceptOps (ls : List String) (ps : PS) : Option (String × PS) :=
  match ls with
  | [] => none
  | s :: rest =>
      match acceptOp s ps with
      | some ps2 => some (s, ps2)
      | none => acceptOps rest ps

/-- Parse outcome: a node (or `none` when the production does not
apply, JS `undefined`) and the new state, or a thrown parse error. -/
abbrev PRes := Except String (Option Node × PS)

mutual

/-- [1082-1092] `expression`: juxtaposition of `negation`s collected
into an Expression node. -/
def pExpression (f : Nat) (ps : PS) : Except String (Node × PS) :=
  match f with
  | 0 => .error "out of fuel"
  | g + 1 => pExprLoop g [] ps
termination_by (f, 0)

def pExprLoop (f : Nat) (acc : List Node) (ps : PS) :
    Except String (Node × PS) :=
  match f with
  | 0 => .error "out of fuel"
  | g + 1 =>
      match pNegation g ps with
      | .error e => .error e
      | .ok (some n, ps2) => pExprLoop g (acc ++ [n]) ps2
      | .ok (none, ps2) => .ok (.expression false acc, ps2)
termination_by (f, 0)

/-- [1099-1104] `negation`: `not` applies a `!` unary op. -/
def pNegation (f : Nat) (ps : PS) : PRes :=
  match f with
  | 0 => .error "out of fuel"
  | g + 1 =>
      match acceptOp "not" ps with
      | some ps2 =>
          match pNegation g ps2 with
          | .error e => .error e
          | .ok (n, ps3) => .ok (some (.unaryop "!" (n.getD .undef)), ps3)
      | none => pTernary g ps
termination_by (f, 0)

/-- [1110-1119] `ternary`. -/
def pTernary (f : Nat) (ps : PS) : PRes :=
  match f with
  | 0 => .error "out of fuel"
  | g + 1 =>
      match pLogical g ps with
      | .error e => .error e
      | .ok (node, ps2) =>
          match acceptOp "?" ps2 with
          | none => .ok (node, ps2)
          | some ps3 =>
              match pExpression g ps3 with
              | .error e => .error e
              | .ok (tB, ps4) =>
                  match acceptOp ":" ps4 with
                  | none => .error "expected :"
                  | some ps5 =>
                      match pExpression g ps5 with
                      | .error e => .error e
                      | .ok (fB, ps6) =>
                          .ok (some (.ternary (node.getD .undef) tB fB), ps6)
termination_by (f, 0)

/-- [1125-1132] `logical`: `&&` / `||` chains. -/
def pLogical (f : Nat) (ps : PS) : PRes :=
  match f with
  | 0 => .error "out of fuel"
  | g + 1 =>
      match pTypecheck g ps with
      | .error e => .error e
      | .ok (node, ps2) => pLogLoop g node ps2
termination_by (f, 0)

def pLogLoop (f : Nat) (node : Option Node) (ps : PS) : PRes :=
  match f with
  | 0 => .error "out of fuel"
  | g + 1 =>
      match acceptOps ["&&", "||"] ps with
      | none => .ok (node, ps)
      | some (o, ps2) =>
          match pTypecheck g ps2 with
          | .error e => .error e
          | .ok (rhs, ps3) =>
              pLogLoop g (some (.binop o (node.getD .undef) (rhs.getD .undef))) ps3
termination_by (f, 0)

/-- [1138-1148] `typecheck`: `is a` chains. -/
def pTypecheck (f : Nat) (ps : PS) : PRes :=
  match f with
  | 0 => .error "out of fuel"
  | g + 1 =>
      match pEquality g ps with
      | .error e => .error e
      | .ok (node, ps2) => pTcLoop g node ps2
termination_by (f, 0)

def pTcLoop (f : Nat) (node : Option Node) (ps : PS) : PRes :=
  match f with
  | 0 => .error "out of fuel"
  | g + 1 =>
      match acceptOp "is a" ps with
      | none => .ok (node, ps)
      | some ps2 =>
          let ps3 := { ps2 with operand := true }
          match node with
          | none => .error "illegal unary is a"
          | some l =>
              match pEquality g ps3 with
              | .error e => .error e
              | .ok (rhs, ps4) =>
                  pTcLoop g (some (.binop "is a" l (rhs.getD .undef)))
                    { ps4 with operand := false }
termination_by (f, 0)

/-- [1154-1164] `equality`: `==` / `!=` chains. -/
def pEquality (f : Nat) (ps : PS) : PRes :=
  match f with
  | 0 => .error "out of fuel"
  | g + 1 =>
      match pIn g ps with
      | .error e => .error e
      | .ok (node, ps2) => pEqLoop g node ps2
termination_by (f, 0)

def pEqLoop (f : Nat) (node : Option Node) (ps : PS) : PRes :=
  match f with
  | 0 => .error "out of fuel"
  | g + 1 =>
      match acceptOps ["==", "!="] ps with
      | none => .ok (node, ps)
      | some (o, ps2) =>
          let ps3 := { ps2 with operand := true }
          match node with
          | none => .error "illegal unary equality"
          | some l =>
              match pIn g ps3 with
              | .error e => .error e
              | .ok (rhs, ps4) =>
                  pEqLoop g (some (.binop o l (rhs.getD .undef)))
                    { ps4 with operand := false }
termination_by (f, 0)

/-- [1170-1179] the `in` production. -/
def pIn (f : Nat) (ps : PS) : PRes :=
  match f with
  | 0 => .error "out of fuel"
  | g + 1 =>
      match pRelational g ps with
      | .error e => .error e
      | .ok (node, ps2) => pInLoop g node ps2
termination_by (f, 0)

def pInLoop (f : Nat) (node : Option Node) (ps : PS) : PRes :=
  match f with
  | 0 => .error "out of fuel"
  | g + 1 =>
      match acceptOp "in" ps with
      | none => .ok (node, ps)
      | some ps2 =>
          let ps3 := { ps2 with operand := true }
          match node with
          | none => .error "illegal unary in"
          | some l =>
              match pRelational g ps3 with
              | .error e => .error e
              | .ok (rhs, ps4) =>
                  pInLoop g (some (.binop "in" l (rhs.getD .undef)))
                    { ps4 with operand := false }
termination_by (f, 0)

/-- [1185-1200] `relational`: `>=` `<=` `<` `>` chains. -/
def pRelational (f : Nat) (ps : PS) : PRes :=
  match f with
  | 0 => .error "out of fuel"
  | g + 1 =>
      match pRange g ps with
      | .error e => .error e
      | .ok (node, ps2) => pRelLoop g node ps2
termination_by (f, 0)

def pRelLoop (f : Nat) (node : Option Node) (ps : PS) : PRes :=
  match f with
  | 0 => .error "out of fuel"
  | g + 1 =>
      match acceptOps [">=", "<=", "<", ">"] ps with
      | none => .ok (node, ps)
      | some (o, ps2) =>
          let ps3 := { ps2 with operand := true }
          match node with
          | none => .error "illegal unary relational"
          | some l =>
              match pRange g ps3 with
              | .error e => .error e
              | .ok (rhs, ps4) =>
                  pRelLoop g (some (.binop o l (rhs.getD .undef)))
                    { ps4 with operand := false }
termination_by (f, 0)

/-- [1206-1216] `range`: a single `...` / `..`. -/
def pRange (f : Nat) (ps : PS) : PRes :=
  match f with
  | 0 => .error "out of fuel"
  | g + 1 =>
      match pAdditive g ps with
      | .error e => .error e
      | .ok (node, ps2) =>
          match acceptOps ["...", ".."] ps2 with
          | none => .ok (node, ps2)
          | some (o, ps3) =>
              let ps4 := { ps3 with operand := true }
              match node with
              | none => .error "illegal unary range"
              | some l =>
                  match pAdditive g ps4 with
                  | .error e => .error e
                  | .ok (rhs, ps5) =>
                      .ok (some (.binop o l (rhs.getD .undef)),
                        { ps5 with operand := false })
termination_by (f, 0)

/-- [1222-1231] `additive`: `+` / `-` chains (the source has no
illegal-unary check here). -/
def pAdditive (f : Nat) (ps : PS) : PRes :=
  match f with
  | 0 => .error "out of fuel"
  | g + 1 =>
      match pMultiplicative g ps with
      | .error e => .error e
      | .ok (node, ps2) => pAddLoop g node ps2
termination_by (f, 0)

def pAddLoop (f : Nat) (node : Option Node) (ps : PS) : PRes :=
  match f with
  | 0 => .error "out of fuel"
  | g + 1 =>
      match acceptOps ["+", "-"] ps with
      | none => .ok (node, ps)
      | some (o, ps2) =>
          let ps3 := { ps2 with operand := true }
          match pMultiplicative g ps3 with
          | .error e => .error e
          | .ok (rhs, ps4) =>
              pAddLoop g (some (.binop o (node.getD .undef) (rhs.getD .undef)))
                { ps4 with operand := false }
termination_by (f, 0)

/-- [1237-1258] `multiplicative`: `**` `*` `/` `%` chains, with the
property-value special case: an unparenthesized `/` inside a
property is not division; the parse returns an expression of the
left operand followed by a literal `/`. -/
def pMultiplicative (f : Nat) (ps : PS) : PRes :=
  match f with
  | 0 => .error "out of fuel"
  | g + 1 =>
      match pDefined g ps with
      | .error e => .error e
      | .ok (node, ps2) => pMulLoop g node ps2
termination_by (f, 0)

def pMulLoop (f : Nat) (node : Option Node) (ps : PS) : PRes :=
  match f with
  | 0 => .error "out of fuel"
  | g + 1 =>
      match acceptOps ["**", "*", "/", "%"] ps with
      | none => .ok (node, ps)
      | some (o, ps2) =>
          let ps3 := { ps2 with operand := true }
          if o == "/" && ps3.inProperty && !ps3.parens then
            .ok (some (.expression false [node.getD .undef, .literal "/"]), ps3)
          else
            match node with
            | none => .error ("illegal unary " ++ o)
            | some l =>
                match pDefined g ps3 with
                | .error e => .error e
                | .ok (rhs, ps4) =>
                    pMulLoop g (some (.binop o l (rhs.getD .undef)))
                      { ps4 with operand := false }
termination_by (f, 0)

/-- [1265-1272] `defined`: a postfix `is defined`. -/
def pDefined (f : Nat) (ps : PS) : PRes :=
  match f with
  | 0 => .error "out of fuel"
  | g + 1 =>
      match pUnary g ps with
      | .error e => .error e
      | .ok (node, ps2) =>
          match acceptOp "is defined" ps2 with
          | none => .ok (node, ps2)
          | some ps3 =>
              match node with
              | none => .error "illegal use of is defined"
              | some l => .ok (some (.binop "is defined" l .null), ps3)
termination_by (f, 0)

/-- [1279-1293] `unary`: prefix `!` `~` `+` `-`. -/
def pUnary (f : Nat) (ps : PS) : PRes :=
  match f with
  | 0 => .error "out of fuel"
  | g + 1 =>
      match acceptOps ["!", "~", "+", "-"] ps with
      | some (o, ps2) =>
          let ps3 := { ps2 with operand := true }
          match pUnary g ps3 with
          | .error e => .error e
          | .ok (inner, ps4) =>
              .ok (some (.unaryop o (inner.getD .undef)),
                { ps4 with operand := false })
      | none => pSubscript g ps
termination_by (f, 0)

/-- [1300-1307] `subscript`: postfix `[ expression ]` chains. -/
def pSubscript (f : Nat) (ps : PS) : PRes :=
  match f with
  | 0 => .error "out of fuel"
  | g + 1 =>
      match pPrimary g ps with
      | .error e => .error e
      | .ok (node, ps2) => pSubLoop g node ps2
termination_by (f, 0)

def pSubLoop (f : Nat) (node : Option Node) (ps : PS) : PRes :=
  match f with
  | 0 => .error "out of fuel"
  | g + 1 =>
      match acceptOp "[" ps with
      | none => .ok (node, ps)
      | some ps2 =>
          match pExpression g ps2 with
          | .error e => .error e
          | .ok (e, ps3) =>
              match acceptOp "]" ps3 with
              | none => .error "expected ]"
              | some ps4 => pSubLoop g (some (.binop "[]" (node.getD .undef) e)) ps4
termination_by (f, 0)

/-- [1320-1347] `primary` restricted to the value fragment (idents
and function calls belong to the statement machinery outside this
fragment): a parenthesized expression sets the `parens` flag for
its extent and clears it after the closing paren, a primitive token
yields its node, anything else yields JS `undefined`. -/
def pPrimary (f : Nat) (ps : PS) : PRes :=
  match f with
  | 0 => .error "out of fuel"
  | g + 1 =>
      match acceptOp "(" ps with
      | some ps1 =>
          let ps2 := { ps1 with parens := true }
          match pExpression g ps2 with
          | .error e => .error e
          | .ok (e, ps3) =>
              match acceptOp ")" ps3 with
              | none => .error "expected )"
              | some ps4 => .ok (some e, { ps4 with parens := false })
      | none =>
          match ps.toks with
          | .nullTok :: rest => .ok (some .null, { ps with toks := rest })
          | .unit v su :: rest => .ok (some (.unit v su), { ps with toks := rest })
          | .color r g2 b a :: rest =>
              .ok (some (.color r g2 b a), { ps with toks := rest })
          | .str s :: rest => .ok (some (.str s), { ps with toks := rest })
          | .literalTok s :: rest =>
              .ok (some (.literal s), { ps with toks := rest })
          | .boolean b :: rest =>
              .ok (some (.boolean b), { ps with toks := rest })
          | _ => .ok (none, ps)
termination_by (f, 0)

end

def stEx : St := ⟨[⟨[], ⟨"root", [], 0⟩⟩], false, [], [], [], fun _ _ => .null⟩

/-- C1: a Call whose name resolves neither to a function bound on the
stack nor to a user-registered host function nor to a built-in is
delegated to `literalCall`: the arguments are evaluated and the Call
node itself is returned unchanged, to be re-emitted verbatim as css
function syntax. -/
theorem c1_literal_call (f : Nat) (st st2 : St) (name : String) (args args2 : Node) :
    (framesLookup st.stack name = none → st.functions.lookup name = none →
      st.bifs.lookup name = none → resolvedFunction st name = none)
    ∧ (resolvedFunction st name = none →
        visitF f st args = .ok (args2, st2) →
        visitF (f + 1) st (.call name args) = .ok (.call name args2, st2)) := by
  constructor
  · intro h1 h2 h3
    simp [resolvedFunction, lookupE, lookupFunction, h1, h2, h3]
  · intro hres hargs
    simp [visitF, hres, hargs]

theorem c1_literal_call_witness :
    resolvedFunction stEx "calc" = none ∧
    visitF 3 stEx (.call "calc" (.expression false [.unit 100 "%"])) =
      .ok (.call "calc" (.expression false [.unit 100 "%"]), stEx) :=
  ⟨rfl, (c1_literal_call 2 stEx stEx "calc" _ _).2 rfl (by simp [visitF, visitSeq, stEx])⟩

/-- C3: the recursion guard of `visitCall`: once a call resolves to a
function the name is pushed onto the calling stack, and a depth
exceeding 200 fails the compile with the stack-overflow error; a
nesting of depth at most 200 passes the guard and proceeds with the
resolved invocation. -/
theorem c3_recursion_guard (f : Nat) (st : St) (name : String) (fn args : Node)
    (hres : resolvedFunction st name = some fn) :
    (200 < st.calling.length + 1 →
      visitF (f + 1) st (.call name args) =
        .error (.stackOverflow, { st with calling := name :: st.calling }))
    ∧ (st.calling.length + 1 ≤ 200 →
      visitF (f + 1) st (.call name args) =
        callResolved f { st with calling := name :: st.calling } name fn args) := by
  constructor
  · intro h
    simp only [visitF, hres]
    rw [if_pos]
    simp [List.length_cons]
    omega
  · intro h
    simp only [visitF, hres]
    rw [if_neg]
    simp [List.length_cons]
    omega

def stDeepEx : St :=
  ⟨[⟨[], ⟨"root", [], 0⟩⟩], true, List.replicate 200 "g", [("f", false)], [],
    fun _ _ => .null⟩

def stRetEx : St :=
  ⟨[⟨[], ⟨"root", [], 0⟩⟩], true, [], [("f", false)], [], fun _ _ => .null⟩

theorem c3_recursion_guard_witness :
    resolvedFunction stDeepEx "f" = some (.funcNative "f" false) ∧
    visitF 3 stDeepEx (.call "f" (.expression false [.unit 1 ""])) =
      .error (.stackOverflow, { stDeepEx with calling := "f" :: stDeepEx.calling }) ∧
    visitF 3 stRetEx (.call "f" (.expression false [.unit 1 ""])) =
      callResolved 2 { stRetEx with calling := ["f"] } "f" (.funcNative "f" false)
        (.expression false [.unit 1 ""]) := by
  refine ⟨rfl, ?_, ?_⟩
  · exact (c3_recursion_guard 2 stDeepEx "f" _ _ rfl).1 (by simp [stDeepEx, List.length_replicate])
  · exact (c3_recursion_guard 2 stRetEx "f" _ _ rfl).2 (by simp [stRetEx])

/-- C4: the parser desugars `x ?= rhs` into the ternary
`(x is defined) ? x : (x = rhs)`; evaluating the resulting node when
x is undefined binds x to the value of rhs (and yields it), and when
x is already defined it yields the stored value with the evaluator
state, hence the binding, unchanged. -/
theorem c4_conditional_assignment (f : Nat) (st st2 : St) (name : String) (il : Bool)
    (ns : List Node) (v w : Node) :
    (assignmentNode name "?=" (.expression il ns) =
      .ternary (.binop "is defined" (.ident name (.expression il ns)) .null)
        (.ident name .null) (.ident name (.expression il ns)))
    ∧ (lookupE st name = none →
        visitF f { st with retFlag := true } (.expression il ns) = .ok (v, st2) →
        visitF (f + 1 + 1) st (assignmentNode name "?=" (.expression il ns)) =
          .ok (v, scopeAddSt name v { st2 with retFlag := st.retFlag }))
    ∧ (lookupE st name = some w →
        visitF f st w = .ok (w, st) →
        visitF (f + 1 + 1) st (assignmentNode name "?=" (.expression il ns)) =
          .ok (w, st)) := by
  refine ⟨rfl, ?_, ?_⟩
  · intro h1 h2
    simp only [assignmentNode]
    simp only [visitF]
    simp [h1, h2, Node.toBoolean]
  · intro h1 h2
    simp only [assignmentNode]
    simp only [visitF]
    simp [h1, h2, Node.toBoolean]

def stDef : St :=
  ⟨[⟨[("x", .unit 3 "px")], ⟨"root", [], 0⟩⟩], false, [], [], [], fun _ _ => .null⟩

theorem c4_conditional_assignment_witness :
    lookupE stEx "x" = none ∧
    visitF 4 stEx (assignmentNode "x" "?=" (.expression false [.unit 7 "px"])) =
      .ok (.expression false [.unit 7 "px"],
        scopeAddSt "x" (.expression false [.unit 7 "px"])
          { { stEx with retFlag := true } with retFlag := stEx.retFlag }) ∧
    lookupE stDef "x" = some (.unit 3 "px") ∧
    visitF 4 stDef (assignmentNode "x" "?=" (.expression false [.unit 7 "px"])) =
      .ok (.unit 3 "px", stDef) := by
  have hrhs : visitF 2 { stEx with retFlag := true }
      (.expression false [.unit 7 "px"]) =
      .ok (.expression false [.unit 7 "px"], { stEx with retFlag := true }) := by
    simp [visitF, visitSeq]
  have hw : visitF 2 stDef (.unit 3 "px") = .ok (.unit 3 "px", stDef) := by
    simp [visitF]
  refine ⟨rfl, ?_, rfl, ?_⟩
  · exact (c4_conditional_assignment 2 stEx { stEx with retFlag := true } "x" false [.unit 7 "px"]
      (.expression false [.unit 7 "px"]) .undef).2.1 rfl hrhs
  · exact (c4_conditional_assignment 2 stDef stDef "x" false [.unit 7 "px"] .undef
      (.unit 3 "px")).2.2 rfl hw

def fnParamsXY : List (String × Bool × Node) :=
  [("x", false, .null), ("y", false, .unit 1 "")]

def fnBodyY : List Node := [.ret (.ident "y" .null)]

def stRet5 : St := ⟨[⟨[], ⟨"root", [], 0⟩⟩], true, [], [], [], fun _ _ => .null⟩

/-- C5: a parameter with no corresponding argument (or an empty
argument expression) is bound to its declared default; if the value
is still Null (no default) the invocation fails with the
missing-argument error.  In particular for f(x, y=1), a call with
one argument binds y to 1 and returns it, a call with two binds y to
the second, and a call of f(x) with no argument fails. -/
theorem c5_param_defaults (args : List Node) (i : Nat) (p : String × Bool × Node) :
    (p.2.1 = false →
      (args.get? i = none ∨ ∃ a, args.get? i = some a ∧ a.isEmpty = true) →
      ((p.2.2 ≠ Node.null → bindVal args i p = .ok (p.1, p.2.2))
        ∧ (p.2.2 = Node.null →
            bindVal args i p = .error (.missingArgument p.1))))
    ∧ invokeFunctionF 6 stRet5 fnParamsXY fnBodyY
        (.expression false [.unit 9 "px"]) = .ok (.unit 1 "", stRet5)
    ∧ invokeFunctionF 6 stRet5 fnParamsXY fnBodyY
        (.expression false [.unit 9 "px", .unit 7 "em"]) =
        .ok (.unit 7 "em", stRet5)
    ∧ invokeFunctionF 6 stRet5 [("x", false, .null)] fnBodyY
        (.expression false []) =
        .error (.missingArgument "x",
          scopeAddSt "mixin" (.boolean false)
            (scopeAddSt "arguments" (.expression false [])
              (pushFrame ⟨[], ⟨"block", [], 0⟩⟩ stRet5))) := by
  refine ⟨?_, ?_, ?_, ?_⟩
  · intro hrest hmiss
    obtain ⟨nm, r, d⟩ := p
    simp only at hrest
    subst hrest
    have hval : (match args.get? i with
        | some a => if a.isEmpty then d else a
        | none => d) = d := by
      rcases hmiss with h | ⟨a, ha, hae⟩
      · rw [h]
      · rw [ha]
        simp [hae]
    constructor
    · intro hd
      simp only [bindVal, if_false, Bool.false_eq_true]
      rw [hval]
      cases d <;> simp_all
    · intro hd
      subst hd
      simp only [bindVal, if_false, Bool.false_eq_true]
      rw [hval]
  · simp [invokeFunctionF, visitF, blockScoped, bindParams, bindVal,
      invokeF, evalNodes, fnParamsXY, fnBodyY, stRet5, scopeAdd, scopeAddSt,
      pushFrame, popFrame, curFrame, withCurFrame, setCurScope, setCurIndex,
      setCurNode, lookupE, framesLookup, lookupFunction, unwrap, Node.nodesOf,
      Node.isEmpty, Node.first, Node.toBoolean, Node.nodeName]
  · simp [invokeFunctionF, visitF, blockScoped, bindParams, bindVal,
      invokeF, evalNodes, fnParamsXY, fnBodyY, stRet5, scopeAdd, scopeAddSt,
      pushFrame, popFrame, curFrame, withCurFrame, setCurScope, setCurIndex,
      setCurNode, lookupE, framesLookup, lookupFunction, unwrap, Node.nodesOf,
      Node.isEmpty, Node.first, Node.toBoolean, Node.nodeName]
  · simp [invokeFunctionF, bindParams, bindVal, fnBodyY, stRet5, scopeAdd,
      scopeAddSt, pushFrame, curFrame, withCurFrame, Node.nodesOf,
      Node.isEmpty]

/-- C6: in the coercion phase of `visitBinOp`, a coercion failure
yields the boolean false for `==` and `!=`, and propagates as a type
error for every other coercing operator. -/
theorem c6_coercion_failure (f : Nat) (st : St) (op : String) (left0 right0 : Node)
    (msg : String)
    (hco : coerce left0.first right0.first = .error msg)
    (hns : ¬(op = "-" ∧ (left0.first).nodeName = "ident"
      ∧ (right0.first).nodeName = "unit")) :
    ((op = "==" ∨ op = "!=") →
      binopPost f st op left0 right0 = .ok (.boolean false, st))
    ∧ (op ∈ (["+", "-", "*", "/", "%", "**", ">", "<", ">=", "<=", "..", "..."] :
        List String) →
      binopPost f st op left0 right0 = .error (.typeErr msg, st)) := by
  constructor
  · rintro (rfl | rfl) <;> simp [binopPost, hco]
  · intro hmem
    fin_cases hmem <;> simp_all [binopPost, hco]

/-- C8: visiting a Property flagged literal is the identity: it is
not reinterpreted as a call, and when its name interpolation and its
already-reduced expression re-evaluate to themselves the node and
the evaluator state come back unchanged. -/
theorem c8_literal_property_identity (f : Nat) (st : St) (segs : List Node) (nm : String) (expr : Node)
    (hseg : interpSeg f st segs = .ok (nm, st))
    (hexpr : visitF f { st with retFlag := true } expr =
      .ok (expr, { st with retFlag := true })) :
    visitF (f + 1) st (.property segs nm expr true) =
      .ok (.property segs nm expr true, st) := by
  simp only [visitF]
  rw [hseg]
  simp [hexpr]

/-- C9: a property whose interpolated name is on the evaluator's
calling stack is evaluated as a regular property and marked literal
rather than reinterpreted as a call, regardless of any same-named
function in scope (in particular inside that function's own body). -/
theorem c9_property_on_calling_stack (f : Nat) (st st2 : St) (segs : List Node) (nm nm0 : String)
    (expr e2 : Node)
    (hseg : interpSeg f st segs = .ok (nm, st))
    (hcal : st.calling.contains nm = true)
    (hexpr : visitF f { st with retFlag := true } expr = .ok (e2, st2)) :
    visitF (f + 1) st (.property segs nm0 expr false) =
      .ok (.property segs nm e2 true, { st2 with retFlag := st.retFlag }) := by
  simp only [visitF]
  rw [hseg]
  simp only [hcal, Bool.not_true, Bool.and_false, Bool.false_and,
    Bool.not_false, Bool.and_true]
  simp [hexpr]

/-- The claim's reading of the return-mode scan (claim C2 / spec
section 4.4 "Invoke semantics"): the expression of the first Return
found, where a nested block contributes only when scanning it finds
a Return. -/
def returnsFirst : List Node → Option Node
  | [] => none
  | .ret e :: _ => some e
  | .block _ bns :: rest =>
      match returnsFirst bns with
      | some e => some e
      | none => returnsFirst rest
  | _ :: rest => returnsFirst rest

def c2Body : List Node := [.block true [.unit 2 ""], .ret (.unit 1 "")]

/-- C2 counterexample: `eval` returns the scan of the first nested
block unconditionally, even when that block holds no Return and a
Return follows it.  On the body `[block [2], return 1]`, invoke in
return mode yields 2, although the claim's scan (`returnsFirst`)
finds a Return whose expression is 1. -/
theorem c2_eval_counterexample :
    invokeF stRet5 (.block true c2Body) = (.unit 2 "", stRet5)
    ∧ returnsFirst c2Body = some (.unit 1 "")
    ∧ Node.unit 2 "" ≠ Node.unit 1 "" := by
  refine ⟨?_, ?_, ?_⟩
  · simp [invokeF, stRet5, evalNodes, Node.nodesOf, c2Body]
  · simp [returnsFirst, c2Body]
  · simp

def plainStmt (n : Node) : Bool :=
  !(n.nodeName == "return" || n.nodeName == "block")

/-- C2 (amended): in return mode `invoke` yields `eval` of the body's
statements, and `eval` yields the last statement when no Return or
nested block occurs, the expression of the first Return when it
precedes any nested block, and the recursive scan of the first
nested block — whatever that block contains — when a block comes
first. -/
theorem c2_eval_amended :
    (∀ st body, st.retFlag = true →
      invokeF st body = (evalNodes body.nodesOf, st))
    ∧ (∀ pre n, (∀ m ∈ pre ++ [n], plainStmt m = true) →
        evalNodes (pre ++ [n]) = n)
    ∧ (∀ pre e rest, (∀ m ∈ pre, plainStmt m = true) →
        evalNodes (pre ++ .ret e :: rest) = e)
    ∧ (∀ pre b bns rest, (∀ m ∈ pre, plainStmt m = true) →
        evalNodes (pre ++ .block b bns :: rest) = evalNodes bns) := by
  refine ⟨?_, ?_, ?_, ?_⟩
  · intro st body h
    simp [invokeF, h]
  · intro pre n hp
    induction pre with
    | nil =>
        have hn := hp n (by simp)
        cases n <;> simp_all [evalNodes, plainStmt, Node.nodeName]
    | cons p pre ih =>
        have hpp := hp p (by simp)
        have hrec := ih (fun m hm => hp m (by simp [hm]))
        cases p <;>
          simp_all [evalNodes, plainStmt, Node.nodeName]
  · intro pre e rest hp
    induction pre with
    | nil => simp [evalNodes]
    | cons p pre ih =>
        have hpp := hp p (by simp)
        have hrec := ih (fun m hm => hp m (by simp [hm]))
        cases p <;>
          simp_all [evalNodes, plainStmt, Node.nodeName]
  · intro pre b bns rest hp
    induction pre with
    | nil => simp [evalNodes]
    | cons p pre ih =>
        have hpp := hp p (by simp)
        have hrec := ih (fun m hm => hp m (by simp [hm]))
        cases p <;>
          simp_all [evalNodes, plainStmt, Node.nodeName]

/-- Result-depth predicate: a successful visit, or one that threw a
Return, leaves the frame-stack depth at `d`; other exceptions are
unconstrained (in the source a non-Return error aborts the
compile). -/
def depthOk (d : Nat) : Res → Prop
  | .ok (_, st2) => st2.stack.length = d
  | .error (.returnEx _, st2) => st2.stack.length = d
  | .error _ => True

def depthOkL (d : Nat) : Except (Err × St) (List Node × St) → Prop
  | .ok (_, st2) => st2.stack.length = d
  | .error (.returnEx _, st2) => st2.stack.length = d
  | .error _ => True

def depthOkS (d : Nat) : Except (Err × St) (String × St) → Prop
  | .ok (_, st2) => st2.stack.length = d
  | .error (.returnEx _, st2) => st2.stack.length = d
  | .error _ => True

/-- Strengthened predicate for the block loops and for
`invokeFunction`: they never let a thrown Return escape. -/
def noRetB (d : Nat) : Except (Err × St) St → Prop
  | .ok st2 => st2.stack.length = d
  | .error (.returnEx _, _) => False
  | .error _ => True

def noRetL (d : Nat) : Except (Err × St) (List Node × St) → Prop
  | .ok (_, st2) => st2.stack.length = d
  | .error (.returnEx _, _) => False
  | .error _ => True

def noRetR (d : Nat) : Res → Prop
  | .ok (_, st2) => st2.stack.length = d
  | .error (.returnEx _, _) => False
  | .error _ => True

theorem length_withCurFrame (g : Frame → Frame) (st : St) :
    (withCurFrame g st).stack.length = st.stack.length := by
  cases h : st.stack <;> simp [withCurFrame, h]

theorem length_scopeAddSt (name : String) (v : Node) (st : St) :
    (scopeAddSt name v st).stack.length = st.stack.length :=
  length_withCurFrame _ _

theorem length_setCurScope (sc : List (String × Node)) (st : St) :
    (setCurScope sc st).stack.length = st.stack.length :=
  length_withCurFrame _ _

theorem length_setCurIndex (i : Nat) (st : St) :
    (setCurIndex i st).stack.length = st.stack.length :=
  length_withCurFrame _ _

theorem length_setCurNode (i : Nat) (n : Node) (st : St) :
    (setCurNode i n st).stack.length = st.stack.length :=
  length_withCurFrame _ _

theorem length_setCurNodes (ns : List Node) (st : St) :
    (setCurNodes ns st).stack.length = st.stack.length :=
  length_withCurFrame _ _

theorem length_pushFrame (fr : Frame) (st : St) :
    (pushFrame fr st).stack.length = st.stack.length + 1 := by
  simp [pushFrame]

theorem length_invokeF (st : St) (b : Node) :
    (invokeF st b).2.stack.length = st.stack.length := by
  unfold invokeF
  split
  · rfl
  · simp [length_setCurNodes]

theorem visitSeq_depth (f : Nat)
    (hP : ∀ st n, depthOk st.stack.length (visitF f st n)) :
    ∀ ns st, depthOkL st.stack.length (visitSeq f st ns) := by
  intro ns
  induction ns with
  | nil => intro st; simp [visitSeq, depthOkL]
  | cons n rest ih =>
      intro st
      simp only [visitSeq]
      cases hv : visitF f st n with
      | error e =>
          have h1 := hP st n
          rw [hv] at h1
          obtain ⟨e1, st2⟩ := e
          cases e1 <;> simp_all [depthOk, depthOkL]
      | ok v =>
          obtain ⟨n2, st2⟩ := v
          have h1 := hP st n
          rw [hv] at h1
          simp only [depthOk] at h1
          cases hr : visitSeq f st2 rest with
          | error e =>
              have h2 := ih st2
              rw [hr] at h2
              obtain ⟨e1, st3⟩ := e
              cases e1 <;> simp_all [depthOkL]
          | ok v2 =>
              obtain ⟨ns2, st3⟩ := v2
              have h2 := ih st2
              rw [hr] at h2
              simp_all [depthOkL]

theorem interpSeg_depth (f : Nat)
    (hP : ∀ st n, depthOk st.stack.length (visitF f st n)) :
    ∀ segs st, depthOkS st.stack.length (interpSeg f st segs) := by
  intro segs
  induction segs with
  | nil => intro st; simp [interpSeg, depthOkS]
  | cons seg rest ih =>
      intro st
      cases seg with
      | expression a b =>
          simp only [interpSeg]
          cases hv : visitF f { st with retFlag := true } (.expression a b) with
          | error e =>
              have h1 := hP { st with retFlag := true } (.expression a b)
              rw [hv] at h1
              obtain ⟨e1, st2⟩ := e
              cases e1 <;> simp_all [depthOk, depthOkS]
          | ok v =>
              obtain ⟨r, st1⟩ := v
              have h1 := hP { st with retFlag := true } (.expression a b)
              rw [hv] at h1
              simp only [depthOk] at h1
              cases hr : interpSeg f { st1 with retFlag := st.retFlag } rest with
              | error e =>
                  have h2 := ih { st1 with retFlag := st.retFlag }
                  rw [hr] at h2
                  obtain ⟨e1, st3⟩ := e
                  cases e1 <;> simp_all [depthOkS]
              | ok v2 =>
                  obtain ⟨s, st3⟩ := v2
                  have h2 := ih { st1 with retFlag := st.retFlag }
                  rw [hr] at h2
                  simp_all [depthOkS]
      | undef =>
          simp only [interpSeg]
          cases hr : interpSeg f st rest with
          | error e =>
              have h2 := ih st
              rw [hr] at h2
              obtain ⟨e1, st3⟩ := e
              cases e1 <;> simp_all [depthOkS]
          | ok v2 =>
              obtain ⟨s, st3⟩ := v2
              have h2 := ih st
              rw [hr] at h2
              simp_all [depthOkS]
      | _ =>
          simp only [interpSeg]
          cases hr : interpSeg f st rest with
          | error e =>
              have h2 := ih st
              rw [hr] at h2
              obtain ⟨e1, st3⟩ := e
              cases e1 <;> simp_all [depthOkS]
          | ok v2 =>
              obtain ⟨s, st3⟩ := v2
              have h2 := ih st
              rw [hr] at h2
              simp_all [depthOkS]

theorem blockUnscoped_depth (f : Nat)
    (hP : ∀ st n, depthOk st.stack.length (visitF f st n)) :
    ∀ ns st, noRetL st.stack.length (blockUnscoped f st ns) := by
  intro ns
  induction ns with
  | nil => intro st; simp [blockUnscoped, noRetL]
  | cons n rest ih =>
      intro st
      simp only [blockUnscoped]
      cases hv : visitF f st n with
      | error e =>
          have h1 := hP st n
          rw [hv] at h1
          obtain ⟨e1, st2⟩ := e
          cases e1 <;> simp_all [depthOk, noRetL]
      | ok v =>
          obtain ⟨r, st2⟩ := v
          have h1 := hP st n
          rw [hv] at h1
          simp only [depthOk] at h1
          cases hr : blockUnscoped f st2 rest with
          | error e =>
              have h2 := ih st2
              rw [hr] at h2
              obtain ⟨e1, st3⟩ := e
              cases e1 <;> simp_all [noRetL]
          | ok v2 =>
              obtain ⟨ns2, st3⟩ := v2
              have h2 := ih st2
              rw [hr] at h2
              simp_all [noRetL]

theorem binopPost_depth (f : Nat)
    (hP : ∀ st n, depthOk st.stack.length (visitF f st n)) :
    ∀ st op l r, depthOk st.stack.length (binopPost f st op l r) := by
  intro st op l r
  simp only [binopPost]
  repeat' split
  all_goals first
    | exact hP st _
    | simp [depthOk]

theorem bindParams_error_shape :
    ∀ ps i args sc e, bindParams ps i args sc = .error e →
      ∃ nm, e = Err.missingArgument nm := by
  intro ps
  induction ps with
  | nil => intro i args sc e h; simp [bindParams] at h
  | cons p rest ih =>
      intro i args sc e h
      simp only [bindParams] at h
      cases hb : bindVal args i p with
      | error e2 =>
          rw [hb] at h
          simp only [bindVal] at hb
          split at hb
          · simp at hb
          · split at hb
            · simp only [Except.error.injEq] at hb
              subst hb
              simp only [Except.error.injEq] at h
              exact ⟨_, h.symm⟩
            · simp at hb
      | ok v =>
          rw [hb] at h
          exact ih _ _ _ _ h

theorem invokeFunctionF_depth (f : Nat)
    (hBlk : ∀ st ns, noRetR st.stack.length (visitF f st (.block true ns))) :
    ∀ st ps body args, noRetR st.stack.length (invokeFunctionF f st ps body args) := by
  intro st ps body args
  simp only [invokeFunctionF]
  cases hb : bindParams ps 0 args.nodesOf
      (curFrame (scopeAddSt "mixin"
        (if st.retFlag then Node.boolean false
          else Node.str (curFrame st).block.name)
        (scopeAddSt "arguments" args
          (pushFrame ⟨[], ⟨"block", [], 0⟩⟩ st)))).scope with
  | error e =>
      obtain ⟨nm, rfl⟩ := bindParams_error_shape _ _ _ _ _ hb
      simp [noRetR]
  | ok sc =>
      cases hv : visitF f
          (setCurScope sc
            (scopeAddSt "mixin"
              (if st.retFlag then Node.boolean false
                else Node.str (curFrame st).block.name)
              (scopeAddSt "arguments" args
                (pushFrame ⟨[], ⟨"block", [], 0⟩⟩ st))))
          (.block true body) with
      | error e =>
          have h1 := hBlk (setCurScope sc
            (scopeAddSt "mixin"
              (if st.retFlag then Node.boolean false
                else Node.str (curFrame st).block.name)
              (scopeAddSt "arguments" args
                (pushFrame ⟨[], ⟨"block", [], 0⟩⟩ st)))) body
          rw [hv] at h1
          obtain ⟨e1, st2⟩ := e
          cases e1 <;> simp_all [noRetR]
      | ok v =>
          obtain ⟨body2, st5⟩ := v
          have h1 := hBlk (setCurScope sc
            (scopeAddSt "mixin"
              (if st.retFlag then Node.boolean false
                else Node.str (curFrame st).block.name)
              (scopeAddSt "arguments" args
                (pushFrame ⟨[], ⟨"block", [], 0⟩⟩ st)))) body
          rw [hv] at h1
          simp only [noRetR, length_setCurScope, length_scopeAddSt,
            length_pushFrame] at h1
          simp only [hv]
          have h2 := length_invokeF (popFrame st5) body2
          cases hinv : invokeF (popFrame st5) body2 with
          | mk rnode rst =>
              rw [hinv] at h2
              simp only [noRetR]
              simp only [popFrame, List.length_tail] at h2
              simp [h2, h1]

theorem length_invokeBuiltinF (st : St) (nm : String) (raw : Bool) (args : Node) :
    (invokeBuiltinF st nm raw args).2.stack.length = st.stack.length := by
  simp [invokeBuiltinF, length_invokeF]

theorem callResolved_depth (f : Nat)
    (hP : ∀ st n, depthOk st.stack.length (visitF f st n))
    (hIF : ∀ st ps body args,
      noRetR st.stack.length (invokeFunctionF f st ps body args)) :
    ∀ st1 nm fn args, depthOk st1.stack.length (callResolved f st1 nm fn args) := by
  intro st1 nm fn args
  simp only [callResolved]
  cases hv : visitF f { st1 with retFlag := true } args with
  | error e =>
      have h1 := hP { st1 with retFlag := true } args
      rw [hv] at h1
      obtain ⟨e1, st2⟩ := e
      cases e1 <;> simp_all [depthOk]
  | ok v =>
      obtain ⟨args2, st3⟩ := v
      have h1 := hP { st1 with retFlag := true } args
      rw [hv] at h1
      simp only [depthOk] at h1
      cases fn
      case funcUser nm2 ps body =>
          cases hi : invokeFunctionF f { st3 with retFlag := st1.retFlag }
              ps body args2 with
          | error e =>
              have h2 := hIF { st3 with retFlag := st1.retFlag } ps body args2
              rw [hi] at h2
              obtain ⟨e1, st5⟩ := e
              cases e1 <;> simp_all [noRetR, depthOk]
          | ok v2 =>
              obtain ⟨r, st5⟩ := v2
              have h2 := hIF { st3 with retFlag := st1.retFlag } ps body args2
              rw [hi] at h2
              simp_all [noRetR, depthOk]
      case funcNative nm2 raw =>
          have h2 := length_invokeBuiltinF { st3 with retFlag := st1.retFlag }
            nm raw args2
          cases hi : invokeBuiltinF { st3 with retFlag := st1.retFlag }
              nm raw args2 with
          | mk r st5 =>
              rw [hi] at h2
              simp_all [depthOk]
      all_goals simp_all [depthOk]

theorem blockScoped_step (g : Nat)
    (ihV : ∀ st n, depthOk st.stack.length (visitF g st n))
    (ihBS : ∀ i st, noRetB st.stack.length (blockScoped g i st)) :
    ∀ i st, noRetB st.stack.length (blockScoped (g + 1) i st) := by
  intro i st
  simp only [blockScoped]
  split
  · cases hv : visitF g (setCurIndex i st)
        ((curFrame st).block.nodes.getD i .null) with
    | ok v =>
        obtain ⟨r, st2⟩ := v
        have h1 := ihV (setCurIndex i st) ((curFrame st).block.nodes.getD i .null)
        rw [hv] at h1
        simp only [depthOk, length_setCurIndex] at h1
        have h2 := ihBS (i + 1) (setCurNode i r st2)
        cases hb : blockScoped g (i + 1) (setCurNode i r st2) with
        | ok st3 =>
            rw [hb] at h2
            simp_all [noRetB, length_setCurNode]
        | error e =>
            rw [hb] at h2
            obtain ⟨e1, st4⟩ := e
            cases e1 <;> simp_all [noRetB]
    | error e =>
        obtain ⟨e1, st2⟩ := e
        have h1 := ihV (setCurIndex i st) ((curFrame st).block.nodes.getD i .null)
        rw [hv] at h1
        cases e1 <;>
          simp_all [depthOk, noRetB, length_setCurIndex, length_setCurNode]
  · simp [noRetB]


theorem visitF_succ_ident (g : Nat) (st : St) (name : String) (val : Node) :
    visitF (g + 1) st (.ident name val) =
      match val with
      | .null =>
          (match lookupE st name with
            | some v => visitF g st v
            | none => .ok (.ident name .null, st))
      | _ =>
          (match visitF g { st with retFlag := true } val with
            | .error e => .error e
            | .ok (v, st2) =>
                .ok (v, scopeAddSt name v { st2 with retFlag := st.retFlag })) := by
  rw [visitF.eq_def]

theorem visitF_succ_binop (g : Nat) (st : St) (op : String) (l r : Node) :
    visitF (g + 1) st (.binop op l r) =
      if op == "is defined" then
        match l with
        | .ident nm _ => .ok (.boolean (lookupE st nm).isSome, st)
        | _ => .error (.illegalUse "invalid is-defined check", st)
      else
        match visitF g { st with retFlag := true } l with
        | .error e => .error e
        | .ok (l2, st2) =>
            match visitF g st2 r with
            | .error e => .error e
            | .ok (r2, st3) =>
                binopPost g { st3 with retFlag := st.retFlag } op l2 r2 := by
  rw [visitF.eq_def]


theorem visitF_depth_step (g : Nat)
    (ihV : ∀ st n, depthOk st.stack.length (visitF g st n))
    (ihBS : ∀ i st, noRetB st.stack.length (blockScoped g i st))
    (ihCR : ∀ st1 nm fn args,
      depthOk st1.stack.length (callResolved g st1 nm fn args))
    (ihBP : ∀ st op l r, depthOk st.stack.length (binopPost g st op l r)) :
    ∀ st n, depthOk st.stack.length (visitF (g + 1) st n) := by
  intro st n
  cases n with
  | undef => simp [visitF, depthOk]
  | null => simp [visitF, depthOk]
  | boolean b => simp [visitF, depthOk]
  | unit v su => simp [visitF, depthOk]
  | str s => simp [visitF, depthOk]
  | literal s => simp [visitF, depthOk]
  | color a b c d => simp [visitF, depthOk]
  | funcUser a b c => simp [visitF, depthOk]
  | funcNative a b => simp [visitF, depthOk]
  | ident name val =>
      rw [visitF_succ_ident]
      split
      · cases hl : lookupE st name with
        | some v => simp only [hl]; exact ihV st v
        | none => simp [hl, depthOk]
      · cases hv : visitF g { st with retFlag := true } val with
        | error e =>
            have h1 := ihV { st with retFlag := true } val
            rw [hv] at h1
            obtain ⟨e1, st2⟩ := e
            cases e1 <;> simp_all [depthOk]
        | ok v2 =>
            obtain ⟨v3, st2⟩ := v2
            have h1 := ihV { st with retFlag := true } val
            rw [hv] at h1
            simp_all [depthOk, length_scopeAddSt]
  | binop op l r =>
      rw [visitF_succ_binop]
      split
      · split <;> simp [depthOk]
      · cases hv1 : visitF g { st with retFlag := true } l with
        | error e =>
            have h1 := ihV { st with retFlag := true } l
            rw [hv1] at h1
            obtain ⟨e1, st2⟩ := e
            cases e1 <;> simp_all [depthOk]
        | ok v1 =>
            obtain ⟨l2, st2⟩ := v1
            have h1 := ihV { st with retFlag := true } l
            rw [hv1] at h1
            simp only [depthOk] at h1
            cases hv2 : visitF g st2 r with
            | error e =>
                have h2 := ihV st2 r
                rw [hv2] at h2
                obtain ⟨e1, st3⟩ := e
                cases e1 <;> simp_all [depthOk]
            | ok v2 =>
                obtain ⟨r2, st3⟩ := v2
                have h2 := ihV st2 r
                rw [hv2] at h2
                simp only [depthOk] at h2
                have h3 := ihBP { st3 with retFlag := st.retFlag } op l2 r2
                simp only at h3
                cases hb : binopPost g { st3 with retFlag := st.retFlag } op l2 r2 with
                | error e =>
                    rw [hb] at h3
                    obtain ⟨e1, st4⟩ := e
                    cases e1 <;> simp_all [depthOk]
                | ok v3 =>
                    obtain ⟨r3, st4⟩ := v3
                    rw [hb] at h3
                    simp_all [depthOk]
  | unaryop op e =>
      simp only [visitF]
      cases hv : visitF g st e with
      | error er =>
          have h1 := ihV st e
          rw [hv] at h1
          obtain ⟨e1, st2⟩ := er
          cases e1 <;> simp_all [depthOk]
      | ok v =>
          obtain ⟨v2, st2⟩ := v
          have h1 := ihV st e
          rw [hv] at h1
          simp only [depthOk] at h1
          repeat' split
          all_goals simp_all [depthOk]
  | ternary cond tB fB =>
      simp only [visitF]
      cases hv : visitF g st cond with
      | error e =>
          have h1 := ihV st cond
          rw [hv] at h1
          obtain ⟨e1, st2⟩ := e
          cases e1 <;> simp_all [depthOk]
      | ok v =>
          obtain ⟨c, st2⟩ := v
          have h1 := ihV st cond
          rw [hv] at h1
          simp only [depthOk] at h1
          cases hcb : c.toBoolean
          · have h2 := ihV st2 fB
            rw [h1] at h2
            simpa [hcb] using h2
          · have h2 := ihV st2 tB
            rw [h1] at h2
            simpa [hcb] using h2
  | expression isList ns =>
      simp only [visitF]
      have hs := visitSeq_depth g ihV ns st
      cases hseq : visitSeq g st ns with
      | error e =>
          rw [hseq] at hs
          obtain ⟨e1, st2⟩ := e
          cases e1 <;> simp_all [depthOkL, depthOk]
      | ok v =>
          obtain ⟨ns2, st2⟩ := v
          rw [hseq] at hs
          simp_all [depthOkL, depthOk]
  | call name args =>
      simp only [visitF]
      cases hr : resolvedFunction st name with
      | none =>
          cases hv : visitF g st args with
          | error e =>
              have h1 := ihV st args
              rw [hv] at h1
              obtain ⟨e1, st2⟩ := e
              cases e1 <;> simp_all [depthOk]
          | ok v =>
              obtain ⟨args2, st2⟩ := v
              have h1 := ihV st args
              rw [hv] at h1
              simp_all [depthOk]
      | some fn =>
          have h2 := ihCR { st with calling := name :: st.calling } name fn args
          by_cases hlen : 200 < st.calling.length + 1
          · simp [hlen, depthOk]
          · simpa [hlen] using h2
  | ret e =>
      simp only [visitF]
      cases hv : visitF g st e with
      | error er =>
          have h1 := ihV st e
          rw [hv] at h1
          obtain ⟨e1, st2⟩ := er
          cases e1 <;> simp_all [depthOk]
      | ok v =>
          obtain ⟨v2, st2⟩ := v
          have h1 := ihV st e
          rw [hv] at h1
          simp_all [depthOk]
  | block scp ns =>
      simp only [visitF]
      split
      · cases hb : blockScoped g 0 (pushFrame ⟨[], ⟨"block", ns, 0⟩⟩ st) with
        | ok st2 =>
            have h2 := ihBS 0 (pushFrame ⟨[], ⟨"block", ns, 0⟩⟩ st)
            rw [hb] at h2
            simp only [noRetB, length_pushFrame] at h2
            simp [depthOk, popFrame, h2]
        | error e =>
            have h2 := ihBS 0 (pushFrame ⟨[], ⟨"block", ns, 0⟩⟩ st)
            rw [hb] at h2
            obtain ⟨e1, st2⟩ := e
            cases e1 <;> simp_all [noRetB, depthOk]
      · have hu := blockUnscoped_depth g ihV ns st
        cases hb : blockUnscoped g st ns with
        | ok v =>
            obtain ⟨ns2, st2⟩ := v
            rw [hb] at hu
            simp_all [noRetL, depthOk]
        | error e =>
            rw [hb] at hu
            obtain ⟨e1, st2⟩ := e
            cases e1 <;> simp_all [noRetL, depthOk]
  | property segs nm0 expr lit =>
      simp only [visitF]
      have hi := interpSeg_depth g ihV segs st
      cases hs : interpSeg g st segs with
      | error e =>
          rw [hs] at hi
          obtain ⟨e1, st2⟩ := e
          cases e1 <;> simp_all [depthOkS, depthOk]
      | ok v =>
          obtain ⟨nm, st1⟩ := v
          rw [hs] at hi
          simp only [depthOkS] at hi
          simp only []
          split
          · cases hv : visitF g { st1 with calling := nm :: st1.calling }
                (.call nm expr) with
            | error e =>
                have h2 := ihV { st1 with calling := nm :: st1.calling }
                  (.call nm expr)
                rw [hv] at h2
                obtain ⟨e1, st3⟩ := e
                cases e1 <;> simp_all [depthOk]
            | ok v2 =>
                obtain ⟨r, st3⟩ := v2
                have h2 := ihV { st1 with calling := nm :: st1.calling }
                  (.call nm expr)
                rw [hv] at h2
                simp_all [depthOk]
          · cases hv : visitF g { st1 with retFlag := true } expr with
            | error e =>
                have h2 := ihV { st1 with retFlag := true } expr
                rw [hv] at h2
                obtain ⟨e1, st3⟩ := e
                cases e1 <;> simp_all [depthOk]
            | ok v2 =>
                obtain ⟨e2, st3⟩ := v2
                have h2 := ihV { st1 with retFlag := true } expr
                rw [hv] at h2
                simp_all [depthOk]

theorem depth_main : ∀ f : Nat,
    (∀ st n, depthOk st.stack.length (visitF f st n))
    ∧ (∀ i st, noRetB st.stack.length (blockScoped f i st))
    ∧ (∀ st ps body args,
        noRetR st.stack.length (invokeFunctionF f st ps body args))
    ∧ (∀ st1 nm fn args, depthOk st1.stack.length (callResolved f st1 nm fn args))
    ∧ (∀ st op l r, depthOk st.stack.length (binopPost f st op l r)) := by
  intro f
  induction f with
  | zero =>
      have hV : ∀ st n, depthOk st.stack.length (visitF 0 st n) := by
        intro st n; simp [visitF, depthOk]
      have hBlk : ∀ st ns, noRetR st.stack.length (visitF 0 st (.block true ns)) := by
        intro st ns; simp [visitF, noRetR]
      have hBS : ∀ i st, noRetB st.stack.length (blockScoped 0 i st) := by
        intro i st; simp [blockScoped, noRetB]
      have hIF := invokeFunctionF_depth 0 hBlk
      have hCR := callResolved_depth 0 hV hIF
      have hBP := binopPost_depth 0 hV
      exact ⟨hV, hBS, hIF, hCR, hBP⟩
  | succ g ih =>
      obtain ⟨ihV, ihBS, ihIF, ihCR, ihBP⟩ := ih
      have hV := visitF_depth_step g ihV ihBS ihCR ihBP
      have hBS := blockScoped_step g ihV ihBS
      have hBlk : ∀ st ns,
          noRetR st.stack.length (visitF (g + 1) st (.block true ns)) := by
        intro st ns
        simp only [visitF]
        cases hb : blockScoped g 0 (pushFrame ⟨[], ⟨"block", ns, 0⟩⟩ st) with
        | ok st2 =>
            have h2 := ihBS 0 (pushFrame ⟨[], ⟨"block", ns, 0⟩⟩ st)
            rw [hb] at h2
            simp only [noRetB, length_pushFrame] at h2
            simp [noRetR, popFrame, h2]
        | error e =>
            have h2 := ihBS 0 (pushFrame ⟨[], ⟨"block", ns, 0⟩⟩ st)
            rw [hb] at h2
            obtain ⟨e1, st2⟩ := e
            cases e1 <;> simp_all [noRetB, noRetR]
      have hIF := invokeFunctionF_depth (g + 1) hBlk
      have hCR := callResolved_depth (g + 1) hV hIF
      have hBP := binopPost_depth (g + 1) hV
      exact ⟨hV, hBS, hIF, hCR, hBP⟩

/-- C10: `visitBlock` preserves the frame-stack depth: a scoped block
pushes exactly one frame before its statements and pops it afterward
(also when a thrown Return was caught and stored), an unscoped block
pushes and pops nothing, so a block visit that completes normally
leaves the stack depth unchanged. -/
theorem c10_block_depth (f : Nat) (st st2 : St) (scp : Bool) (ns : List Node) (r : Node) :
    (visitF f st (.block scp ns) = .ok (r, st2) →
      st2.stack.length = st.stack.length)
    ∧ (visitF (f + 1) st (.block true ns) =
        match blockScoped f 0 (pushFrame ⟨[], ⟨"block", ns, 0⟩⟩ st) with
        | .error e => .error e
        | .ok st3 => .ok (.block true (curFrame st3).block.nodes, popFrame st3))
    ∧ (visitF (f + 1) st (.block false ns) =
        match blockUnscoped f st ns with
        | .error e => .error e
        | .ok (ns2, st3) => .ok (.block false ns2, st3)) := by
  refine ⟨?_, ?_, ?_⟩
  · intro h
    have h1 := (depth_main f).1 st (.block scp ns)
    rw [h] at h1
    simpa [depthOk] using h1
  · rw [visitF.eq_def]
    rfl
  · rw [visitF.eq_def]
    rfl

/-- C7: while parsing a property value an unparenthesized `/` is not
division: the parse yields an expression of the left operand
followed by a literal `/` (the operand after it is picked up by the
enclosing juxtaposition); inside parentheses the same tokens parse
as an arithmetic division BinOp. -/
theorem c7_property_slash (v1 v2 : Int) (s1 s2 : String) :
    pExpression 40 ⟨[.unit v1 s1, .op "/", .unit v2 s2], true, false, false⟩ =
      .ok (.expression false
          [.expression false [.unit v1 s1, .literal "/"], .unit v2 s2],
        ⟨[], true, false, true⟩)
    ∧ pExpression 40
        ⟨[.op "(", .unit v1 s1, .op "/", .unit v2 s2, .op ")"],
          true, false, false⟩ =
      .ok (.expression false
          [.expression false [.binop "/" (.unit v1 s1) (.unit v2 s2)]],
        ⟨[], true, false, false⟩) := by
  constructor <;>
    simp [pExpression, pExprLoop, pNegation, pTernary, pLogical, pLogLoop,
      pTypecheck, pTcLoop, pEquality, pEqLoop, pIn, pInLoop, pRelational,
      pRelLoop, pRange, pAdditive, pAddLoop, pMultiplicative, pMulLoop,
      pDefined, pUnary, pSubscript, pSubLoop, pPrimary, acceptOp, acceptOps]


theorem c5_param_defaults_witness :
    bindVal [] 0 ("y", false, Node.unit 1 "") = .ok ("y", Node.unit 1 "")
    ∧ bindVal [] 0 ("x", false, Node.null) =
        .error (.missingArgument "x") := by
  constructor
  · exact ((c5_param_defaults [] 0 ("y", false, Node.unit 1 "")).1 rfl
      (Or.inl rfl)).1 (by simp)
  · exact ((c5_param_defaults [] 0 ("x", false, Node.null)).1 rfl
      (Or.inl rfl)).2 rfl

theorem c6_coercion_failure_witness :
    binopPost 1 stEx "==" (.unit 1 "") (.boolean true) =
      .ok (.boolean false, stEx)
    ∧ binopPost 1 stEx "+" (.unit 1 "") (.boolean true) =
      .error (.typeErr "failed to coerce boolean", stEx) := by
  have hco : coerce (Node.first (.unit 1 "")) (Node.first (.boolean true)) =
      .error "failed to coerce boolean" := by
    simp [Node.first, coerce, Node.nodeName]
  have hns : ¬("==" = "-" ∧ (Node.first (.unit 1 "")).nodeName = "ident"
      ∧ (Node.first (.boolean true)).nodeName = "unit") := by simp
  have hns2 : ¬("+" = "-" ∧ (Node.first (.unit 1 "")).nodeName = "ident"
      ∧ (Node.first (.boolean true)).nodeName = "unit") := by simp
  constructor
  · exact (c6_coercion_failure 1 stEx "==" (.unit 1 "") (.boolean true)
      "failed to coerce boolean" hco hns).1 (Or.inl rfl)
  · exact (c6_coercion_failure 1 stEx "+" (.unit 1 "") (.boolean true)
      "failed to coerce boolean" hco hns2).2 (by simp)

theorem c8_literal_property_identity_witness :
    visitF 2 stEx (.property [.ident "width" .null] "width" (.unit 10 "px") true) =
      .ok (.property [.ident "width" .null] "width" (.unit 10 "px") true, stEx) := by
  have hseg : interpSeg 1 stEx [.ident "width" .null] = .ok ("width", stEx) := by
    simp [interpSeg, segToStr]
  have hexpr : visitF 1 { stEx with retFlag := true } (.unit 10 "px") =
      .ok (.unit 10 "px", { stEx with retFlag := true }) := by
    simp [visitF]
  exact c8_literal_property_identity 1 stEx [.ident "width" .null] "width"
    (.unit 10 "px") hseg hexpr

def stC9 : St :=
  ⟨[⟨[("pad", .funcUser "pad" [("x", false, .null)] [])], ⟨"root", [], 0⟩⟩],
    false, ["pad"], [], [], fun _ _ => .null⟩

theorem c9_property_on_calling_stack_witness :
    lookupE stC9 "pad" = some (.funcUser "pad" [("x", false, .null)] [])
    ∧ visitF 3 stC9
        (.property [.ident "pad" .null] "" (.expression false [.unit 5 "px"]) false) =
      .ok (.property [.ident "pad" .null] "pad"
          (.expression false [.unit 5 "px"]) true,
        { { stC9 with retFlag := true } with retFlag := stC9.retFlag }) := by
  have hseg : interpSeg 2 stC9 [.ident "pad" .null] = .ok ("pad", stC9) := by
    simp [interpSeg, segToStr]
  have hcal : stC9.calling.contains "pad" = true := by simp [stC9]
  have hexpr : visitF 2 { stC9 with retFlag := true }
      (.expression false [.unit 5 "px"]) =
      .ok (.expression false [.unit 5 "px"], { stC9 with retFlag := true }) := by
    simp [visitF, visitSeq]
  refine ⟨by simp [lookupE, framesLookup, stC9, unwrap], ?_⟩
  exact c9_property_on_calling_stack 2 stC9 { stC9 with retFlag := true }
    [.ident "pad" .null] "pad" "" (.expression false [.unit 5 "px"])
    (.expression false [.unit 5 "px"]) hseg hcal hexpr

theorem c2_eval_amended_witness :
    invokeF stRet5 (.block true [.unit 4 ""]) = (evalNodes [Node.unit 4 ""], stRet5)
    ∧ evalNodes [Node.unit 9 "", Node.unit 4 ""] = Node.unit 4 ""
    ∧ evalNodes [Node.unit 9 "", Node.ret (.unit 3 ""), Node.unit 4 ""] =
        Node.unit 3 ""
    ∧ evalNodes [Node.unit 9 "", Node.block true [.unit 8 ""], Node.ret (.unit 3 "")] =
        evalNodes [Node.unit 8 ""] := by
  refine ⟨?_, ?_, ?_, ?_⟩
  · exact c2_eval_amended.1 stRet5 (.block true [.unit 4 ""]) rfl
  · exact c2_eval_amended.2.1 [Node.unit 9 ""] (Node.unit 4 "")
      (by simp [plainStmt, Node.nodeName])
  · exact c2_eval_amended.2.2.1 [Node.unit 9 ""] (.unit 3 "") [Node.unit 4 ""]
      (by simp [plainStmt, Node.nodeName])
  · exact c2_eval_amended.2.2.2 [Node.unit 9 ""] true [.unit 8 ""]
      [Node.ret (.unit 3 "")] (by simp [plainStmt, Node.nodeName])

theorem c10_block_depth_witness :
    visitF 4 stEx (.block true [.ret (.unit 5 "")]) =
      .ok (.block true [.ret (.unit 5 "")], stEx)
    ∧ stEx.stack.length = stEx.stack.length := by
  have h : visitF 4 stEx (.block true [.ret (.unit 5 "")]) =
      .ok (.block true [.ret (.unit 5 "")], stEx) := by
    simp [visitF, blockScoped, setCurIndex, setCurNode, curFrame, withCurFrame,
      pushFrame, popFrame, stEx]
  exact ⟨h, (c10_block_depth 4 stEx stEx true [.ret (.unit 5 "")]
    (.block true [.ret (.unit 5 "")])).1 h⟩
